import Mathlib

/-!
Verification of the timeline-and-render pipeline of the
`image-video-generator` repository (`video-generator/src/video/editor.py`
and `video-generator/app.py`), as a shallow embedding in Lean 4.

Modelling conventions:
* Python floats are modelled as rationals (`ℚ`); every arithmetic step of
  the source is mirrored on `ℚ`.
* Python code that can raise is modelled in `Except Unit`; `.error ()`
  stands for a propagated exception.
* Python dictionaries are modelled as association lists with `List.lookup`.
-/

namespace VideoGen

/-- `int()` truncation toward zero, as Python's `int(float)` behaves. -/
def pyTrunc (q : ℚ) : ℤ := if 0 ≤ q then ⌊q⌋ else ⌈q⌉

/-- One timeline entry; mirrors the dataclass `TimelineEntry` of
`video-generator/src/video/editor.py` (fields `start_time`, `end_time`,
`media_type`, `file_path`, `speaker`). -/
structure TimelineEntry where
  start_time : ℚ
  end_time : ℚ
  media_type : String
  file_path : String
  speaker : Option String := none
deriving DecidableEq, Repr

/-- The timeline; mirrors the dataclass `Timeline` of
`video-generator/src/video/editor.py` (fields `entries`, `total_duration`). -/
structure Timeline where
  entries : List TimelineEntry := []
  total_duration : ℚ := 0
deriving DecidableEq, Repr

/-- `Timeline.add_entry`: appends the entry and bumps `total_duration`
when the new entry ends later (the literal `if entry.end_time >
self.total_duration` of the source). -/
def Timeline.add_entry (t : Timeline) (e : TimelineEntry) : Timeline :=
  { entries := t.entries ++ [e]
    total_duration :=
      if e.end_time > t.total_duration then e.end_time else t.total_duration }

/-- A freshly constructed `Timeline()`: no entries, `total_duration = 0`. -/
def emptyTimeline : Timeline := {}

/-- Run a whole sequence of `add_entry` calls on a fresh timeline. -/
def runTimeline (es : List TimelineEntry) : Timeline :=
  es.foldl Timeline.add_entry emptyTimeline

/-- The accumulator step of `total_duration`: `max` with the entry's end. -/
def maxEnd (a : ℚ) (e : TimelineEntry) : ℚ := max a e.end_time

lemma add_entry_total_duration (t : Timeline) (e : TimelineEntry) :
    (t.add_entry e).total_duration = max t.total_duration e.end_time := by
  simp only [Timeline.add_entry]
  rcases lt_or_le t.total_duration e.end_time with h | h
  · rw [if_pos h, max_eq_right h.le]
  · rw [if_neg (not_lt.mpr h), max_eq_left h]

lemma add_entry_entries (t : Timeline) (e : TimelineEntry) :
    (t.add_entry e).entries = t.entries ++ [e] := rfl

lemma foldl_add_entry_total (t : Timeline) (es : List TimelineEntry) :
    (es.foldl Timeline.add_entry t).total_duration =
      es.foldl maxEnd t.total_duration := by
  induction es generalizing t with
  | nil => rfl
  | cons e es ih =>
    rw [List.foldl_cons, List.foldl_cons, ih, add_entry_total_duration]
    rfl

lemma foldl_add_entry_entries (t : Timeline) (es : List TimelineEntry) :
    (es.foldl Timeline.add_entry t).entries = t.entries ++ es := by
  induction es generalizing t with
  | nil => simp
  | cons e es ih =>
    rw [List.foldl_cons, ih, add_entry_entries]
    simp

lemma le_foldl_maxEnd (a : ℚ) (es : List TimelineEntry) :
    a ≤ es.foldl maxEnd a := by
  induction es generalizing a with
  | nil => exact le_refl a
  | cons e es ih =>
    exact le_trans (le_max_left a e.end_time) (ih (maxEnd a e))

lemma mem_le_foldl_maxEnd {e : TimelineEntry} {es : List TimelineEntry}
    (h : e ∈ es) (a : ℚ) : e.end_time ≤ es.foldl maxEnd a := by
  induction es generalizing a with
  | nil => cases h
  | cons f es ih =>
    rcases List.mem_cons.mp h with rfl | hmem
    · exact le_trans (le_max_right a e.end_time) (le_foldl_maxEnd _ es)
    · exact ih hmem (maxEnd a f)

lemma foldl_maxEnd_eq_or_mem (a : ℚ) (es : List TimelineEntry) :
    es.foldl maxEnd a = a ∨ ∃ e ∈ es, es.foldl maxEnd a = e.end_time := by
  induction es generalizing a with
  | nil => exact Or.inl rfl
  | cons f es ih =>
    rcases ih (maxEnd a f) with h | ⟨e, he, h⟩
    · rcases le_or_lt f.end_time a with hle | hlt
      · left
        rw [List.foldl_cons, h]
        simp [maxEnd, max_eq_left hle]
      · right
        refine ⟨f, List.mem_cons_self f es, ?_⟩
        rw [List.foldl_cons, h]
        simp [maxEnd, max_eq_right hlt.le]
    · exact Or.inr ⟨e, List.mem_cons_of_mem f he, by rw [List.foldl_cons]; exact h⟩

/-- C1: on a fresh `Timeline`, after any sequence of `add_entry` calls,
`total_duration` is 0 for the empty sequence, is an attained entry
`end_time` for a nonempty sequence, bounds every entry's `end_time` from
above (so it is the maximum), and never decreases when a further entry is
added. -/
theorem timeline_total_duration_max (es : List TimelineEntry)
    (h : ∀ e ∈ es, 0 ≤ e.end_time) :
    (runTimeline []).total_duration = 0 ∧
    (es ≠ [] → ∃ e ∈ es, (runTimeline es).total_duration = e.end_time) ∧
    (∀ e ∈ es, e.end_time ≤ (runTimeline es).total_duration) ∧
    (∀ e, (runTimeline es).total_duration ≤
      (runTimeline (es ++ [e])).total_duration) := by
  have htot : ∀ l : List TimelineEntry,
      (runTimeline l).total_duration = l.foldl maxEnd 0 := by
    intro l
    exact foldl_add_entry_total emptyTimeline l
  refine ⟨rfl, ?_, ?_, ?_⟩
  · intro hne
    rcases foldl_maxEnd_eq_or_mem 0 es with h0 | ⟨e, he, hval⟩
    · match es, hne with
      | f :: rest, _ =>
        refine ⟨f, List.mem_cons_self f rest, ?_⟩
        have hle : f.end_time ≤ (runTimeline (f :: rest)).total_duration :=
          (htot (f :: rest)) ▸ mem_le_foldl_maxEnd (List.mem_cons_self f rest) 0
        have hge : 0 ≤ f.end_time := h f (List.mem_cons_self f rest)
        rw [htot (f :: rest), h0]
        exact le_antisymm (le_trans hle (by rw [htot (f :: rest), h0])) hge |>.symm
    · exact ⟨e, he, by rw [htot es]; exact hval⟩
  · intro e he
    rw [htot es]
    exact mem_le_foldl_maxEnd he 0
  · intro e
    rw [htot es, htot (es ++ [e]), List.foldl_append]
    exact le_max_left _ _

/-- C1 witness: a concrete two-entry run where the second, longer entry
sets the maximum. -/
theorem timeline_total_duration_max_witness :
    ∃ e ∈ [(⟨0, 3, "audio", "a.wav", some "speaker1"⟩ : TimelineEntry),
            ⟨3, 8, "audio", "b.wav", some "speaker2"⟩],
      (runTimeline [⟨0, 3, "audio", "a.wav", some "speaker1"⟩,
                    ⟨3, 8, "audio", "b.wav", some "speaker2"⟩]).total_duration =
        e.end_time :=
  (timeline_total_duration_max
      [⟨0, 3, "audio", "a.wav", some "speaker1"⟩,
       ⟨3, 8, "audio", "b.wav", some "speaker2"⟩]
      (by decide)).2.1 (by decide)

/-! ### Python `int()` on strings, and `time_to_seconds` (app.py, lines 88-95) -/

def exceptDecEq {ε α : Type} [DecidableEq ε] [DecidableEq α] :
    DecidableEq (Except ε α) := fun x y =>
  match x, y with
  | .error a, .error b =>
    if h : a = b then .isTrue (by rw [h]) else .isFalse (fun hc => h (by cases hc; rfl))
  | .error _, .ok _ => .isFalse (fun hc => by cases hc)
  | .ok _, .error _ => .isFalse (fun hc => by cases hc)
  | .ok a, .ok b =>
    if h : a = b then .isTrue (by rw [h]) else .isFalse (fun hc => h (by cases hc; rfl))

instance {ε α : Type} [DecidableEq ε] [DecidableEq α] : DecidableEq (Except ε α) :=
  exceptDecEq

/-- Value of an ASCII decimal digit, `none` for any other character. -/
def pyDigit (c : Char) : Option ℕ :=
  if c.isDigit then some (c.toNat - 48) else none

/-- Remaining characters of a Python integer literal after the first digit:
digits, with single underscores allowed between digits. -/
def pyDigitsRest : List Char → ℕ → Option ℕ
  | [], acc => some acc
  | '_' :: c :: cs, acc =>
    match pyDigit c with
    | some d => pyDigitsRest cs (10 * acc + d)
    | none => none
  | c :: cs, acc =>
    match pyDigit c with
    | some d => pyDigitsRest cs (10 * acc + d)
    | none => none

/-- A nonempty digit string (Python `int()` body after sign stripping). -/
def pyNat (l : List Char) : Option ℕ :=
  match l with
  | [] => none
  | c :: cs =>
    match pyDigit c with
    | some d => pyDigitsRest cs d
    | none => none

/-- Strip surrounding whitespace, as Python `int()` does before parsing. -/
def pyStrip (l : List Char) : List Char :=
  ((l.dropWhile Char.isWhitespace).reverse.dropWhile Char.isWhitespace).reverse

/-- Python's `int(str)`: strip surrounding whitespace, optional sign, then a
nonempty digit string; `none` models the `ValueError` raise. -/
def pyInt (s : String) : Option ℤ :=
  match pyStrip s.toList with
  | '+' :: cs => (pyNat cs).map (fun n => (n : ℤ))
  | '-' :: cs => (pyNat cs).map (fun n => -(n : ℤ))
  | cs => (pyNat cs).map (fun n => (n : ℤ))

/-- Python's `str.split(sep)` for a one-character separator, on char lists. -/
def splitChar (sep : Char) : List Char → List (List Char)
  | [] => [[]]
  | c :: cs =>
    let r := splitChar sep cs
    if c = sep then [] :: r
    else
      match r with
      | [] => [[c]]
      | g :: gs => (c :: g) :: gs

/-- Python's `time_str.split(":")`. -/
def pySplit (s : String) : List String :=
  (splitChar ':' s.toList).map (fun l => String.mk l)

/-- `time_to_seconds` (app.py): split on ":"; two parts give `M*60+SS`,
three give `H*3600+MM*60+SS`, any other part count gives `0.0`.  A part
that `int()` cannot parse propagates `ValueError` (`.error ()`). -/
def time_to_seconds (time_str : String) : Except Unit ℚ :=
  match pySplit time_str with
  | [m, s] =>
    match pyInt m, pyInt s with
    | some a, some b => .ok ((a : ℚ) * 60 + (b : ℚ))
    | _, _ => .error ()
  | [h, m, s] =>
    match pyInt h, pyInt m, pyInt s with
    | some a, some b, some c => .ok ((a : ℚ) * 3600 + (b : ℚ) * 60 + (c : ℚ))
    | _, _, _ => .error ()
  | _ => .ok 0

lemma time_to_seconds_two {s a b : String} {m n : ℤ}
    (hs : pySplit s = [a, b]) (hm : pyInt a = some m) (hn : pyInt b = some n) :
    time_to_seconds s = .ok ((m : ℚ) * 60 + (n : ℚ)) := by
  simp [time_to_seconds, hs, hm, hn]

lemma tts_0_10 : time_to_seconds "0:10" = .ok 10 := by
  have h := time_to_seconds_two (s := "0:10") (a := "0") (b := "10")
    (m := 0) (n := 10) (by decide) (by decide) (by decide)
  norm_num at h
  exact h

lemma tts_1_00 : time_to_seconds "1:00" = .ok 60 := by
  have h := time_to_seconds_two (s := "1:00") (a := "1") (b := "00")
    (m := 1) (n := 0) (by decide) (by decide) (by decide)
  norm_num at h
  exact h

/-- C6 counterexample: `"a:b"` splits into two parts, so the code calls
`int("a")`, which raises `ValueError`; `time_to_seconds` therefore raises
instead of returning `0.0` on this malformed string. -/
theorem time_to_seconds_raises : time_to_seconds "a:b" = .error () := by decide

/-- C6 amended: a `"M:SS"` string whose parts parse as Python integers
yields `M*60+SS`; an `"H:MM:SS"` string yields `H*3600+MM*60+SS`; a string
with any other number of ":"-separated parts yields `0.0`; but a 2- or
3-part string with a non-integer part raises `ValueError` rather than
yielding `0.0`. -/
theorem time_to_seconds_spec (s : String) :
    (∀ a b m n, pySplit s = [a, b] → pyInt a = some m → pyInt b = some n →
      time_to_seconds s = .ok ((m : ℚ) * 60 + (n : ℚ))) ∧
    (∀ a b c m n k, pySplit s = [a, b, c] → pyInt a = some m →
      pyInt b = some n → pyInt c = some k →
      time_to_seconds s = .ok ((m : ℚ) * 3600 + (n : ℚ) * 60 + (k : ℚ))) ∧
    ((pySplit s).length ≠ 2 → (pySplit s).length ≠ 3 →
      time_to_seconds s = .ok 0) := by
  refine ⟨?_, ?_, ?_⟩
  · intro a b m n hs hm hn
    simp [time_to_seconds, hs, hm, hn]
  · intro a b c m n k hs ha hb hc
    simp [time_to_seconds, ha, hb, hc, hs]
  · intro h2 h3
    simp only [time_to_seconds]
    rcases hsp : pySplit s with _ | ⟨a, _ | ⟨b, _ | ⟨c, rest⟩⟩⟩
    · rfl
    · rfl
    · rw [hsp] at h2
      simp at h2
    · cases rest with
      | nil =>
        rw [hsp] at h3
        simp at h3
      | cons d ds => rfl

/-- C6 witness: concrete evaluations in each amended branch. -/
theorem time_to_seconds_spec_witness :
    time_to_seconds "1:30" = .ok 90 ∧
    time_to_seconds "1:02:03" = .ok 3723 ∧
    time_to_seconds "nocolon" = .ok 0 := by
  refine ⟨?_, ?_, ?_⟩
  · have h := (time_to_seconds_spec "1:30").1 "1" "30" 1 30
      (by decide) (by decide) (by decide)
    norm_num at h
    exact h
  · have h := (time_to_seconds_spec "1:02:03").2.1 "1" "02" "03" 1 2 3
      (by decide) (by decide) (by decide) (by decide)
    norm_num at h
    exact h
  · exact (time_to_seconds_spec "nocolon").2.2 (by decide) (by decide)

/-! ### The time rescaler of `run_generation` (app.py, lines 1563-1587 and
1653-1692).  Both the Filmora branch and the auto branch compute the same
scale factor and scale every prompt's parsed times by it; the auto branch
additionally inserts a background-video entry when one is assigned. -/

/-- One image prompt; mirrors the dataclass `ImagePrompt` of
`video-generator/src/image/generator.py`. -/
structure ImagePrompt where
  number : ℕ
  start_time : String
  end_time : String
  prompt : String := ""
deriving DecidableEq, Repr

/-- `prompt_total_duration` (app.py): the parsed `end_time` of the last
prompt, or `audio_total_duration` itself when the prompt list is empty. -/
def computePromptTotal (prompts : List ImagePrompt) (audio_total : ℚ) :
    Except Unit ℚ :=
  match prompts.getLast? with
  | some last => time_to_seconds last.end_time
  | none => .ok audio_total

/-- `time_scale` (app.py): `audio_total / prompt_total` when
`prompt_total > 0`, else the 1.0 default. -/
def computeTimeScale (audio_total prompt_total : ℚ) : ℚ :=
  if prompt_total > 0 then audio_total / prompt_total else 1

/-- The timeline entries contributed by one prompt of the rescaling loop:
nothing when the prompt has no generated image; otherwise the scaled
background-video entry (when a background video is assigned to the prompt
number) followed by the scaled image entry.  A `ValueError` from
`time_to_seconds` propagates. -/
def promptEntries (gen bg : List (ℕ × String)) (scale : ℚ) (p : ImagePrompt) :
    Except Unit (List TimelineEntry) :=
  match gen.lookup p.number with
  | none => .ok []
  | some img =>
    match time_to_seconds p.start_time, time_to_seconds p.end_time with
    | .ok s, .ok e =>
      let scaled_start := s * scale
      let scaled_end := e * scale
      let vids : List TimelineEntry :=
        match bg.lookup p.number with
        | some v => [⟨scaled_start, scaled_end, "video", v, none⟩]
        | none => []
      .ok (vids ++ [⟨scaled_start, scaled_end, "image", img, none⟩])
    | _, _ => .error ()

/-- The rescaling loop of `run_generation`: fold `promptEntries` over the
prompt list, adding each produced entry to the timeline in order. -/
def rescaleStep (prompts : List ImagePrompt) (gen bg : List (ℕ × String))
    (scale : ℚ) (t : Timeline) : Except Unit Timeline :=
  match prompts with
  | [] => .ok t
  | p :: ps =>
    match promptEntries gen bg scale p with
    | .ok es => rescaleStep ps gen bg scale (es.foldl Timeline.add_entry t)
    | .error e => .error e

lemma promptEntries_scaled {gen bg : List (ℕ × String)} {scale : ℚ}
    {p : ImagePrompt} {es : List TimelineEntry}
    (h : promptEntries gen bg scale p = .ok es) :
    ∀ en ∈ es, ∃ s e, time_to_seconds p.start_time = .ok s ∧
      time_to_seconds p.end_time = .ok e ∧
      en.start_time = s * scale ∧ en.end_time = e * scale := by
  unfold promptEntries at h
  rcases hg : gen.lookup p.number with _ | img
  · rw [hg] at h
    cases h
    intro en hen
    cases hen
  · rw [hg] at h
    rcases hs : time_to_seconds p.start_time with u | s <;> rw [hs] at h
    · cases h
    rcases he : time_to_seconds p.end_time with u | e <;> rw [he] at h
    · cases h
    rcases hb : bg.lookup p.number with _ | v <;> rw [hb] at h <;> cases h <;>
      intro en hen
    · rcases List.mem_singleton.mp hen with rfl
      exact ⟨s, e, rfl, rfl, rfl, rfl⟩
    · rcases List.mem_append.mp hen with h1 | h1
      · rcases List.mem_singleton.mp h1 with rfl
        exact ⟨s, e, rfl, rfl, rfl, rfl⟩
      · rcases List.mem_singleton.mp h1 with rfl
        exact ⟨s, e, rfl, rfl, rfl, rfl⟩

lemma rescaleStep_entries {prompts : List ImagePrompt}
    {gen bg : List (ℕ × String)} {scale : ℚ} {t t' : Timeline}
    (h : rescaleStep prompts gen bg scale t = .ok t') :
    ∀ en ∈ t'.entries, en ∈ t.entries ∨
      ∃ p ∈ prompts, ∃ s e, time_to_seconds p.start_time = .ok s ∧
        time_to_seconds p.end_time = .ok e ∧
        en.start_time = s * scale ∧ en.end_time = e * scale := by
  induction prompts generalizing t with
  | nil =>
    cases h
    intro en hen
    exact Or.inl hen
  | cons p ps ih =>
    unfold rescaleStep at h
    rcases hp : promptEntries gen bg scale p with u | es <;> rw [hp] at h
    · cases h
    · intro en hen
      rcases ih h en hen with hmem | ⟨q, hq, rest⟩
      · rw [foldl_add_entry_entries] at hmem
        rcases List.mem_append.mp hmem with h1 | h1
        · exact Or.inl h1
        · rcases promptEntries_scaled hp en h1 with ⟨s, e, hs, he, h3, h4⟩
          exact Or.inr ⟨p, List.mem_cons_self p ps, s, e, hs, he, h3, h4⟩
      · exact Or.inr ⟨q, List.mem_cons_of_mem p hq, rest⟩

lemma rescaleStep_entries_prefix {prompts : List ImagePrompt}
    {gen bg : List (ℕ × String)} {scale : ℚ} {t t' : Timeline}
    (h : rescaleStep prompts gen bg scale t = .ok t') :
    ∃ l, t'.entries = t.entries ++ l := by
  induction prompts generalizing t with
  | nil =>
    cases h
    exact ⟨[], by simp⟩
  | cons p ps ih =>
    unfold rescaleStep at h
    rcases hp : promptEntries gen bg scale p with u | es <;> rw [hp] at h
    · cases h
    · rcases ih h with ⟨l, hl⟩
      rw [hl, foldl_add_entry_entries]
      exact ⟨es ++ l, by simp⟩

lemma rescaleStep_complete {prompts : List ImagePrompt}
    {gen bg : List (ℕ × String)} {scale : ℚ} {t t' : Timeline}
    (h : rescaleStep prompts gen bg scale t = .ok t')
    {p : ImagePrompt} (hp : p ∈ prompts) {img : String}
    (himg : gen.lookup p.number = some img) {s e : ℚ}
    (hs : time_to_seconds p.start_time = .ok s)
    (he : time_to_seconds p.end_time = .ok e) :
    (⟨s * scale, e * scale, "image", img, none⟩ : TimelineEntry) ∈ t'.entries := by
  induction prompts generalizing t with
  | nil => cases hp
  | cons q ps ih =>
    unfold rescaleStep at h
    rcases hq : promptEntries gen bg scale q with u | es <;> rw [hq] at h
    · cases h
    · rcases List.mem_cons.mp hp with rfl | hmem
      · have hin : (⟨s * scale, e * scale, "image", img, none⟩ : TimelineEntry) ∈ es := by
          unfold promptEntries at hq
          rw [himg, hs, he] at hq
          rcases hb : bg.lookup p.number with _ | v <;> rw [hb] at hq <;> cases hq <;>
            simp
        rcases rescaleStep_entries_prefix h with ⟨l, hl⟩
        rw [hl, foldl_add_entry_entries]
        exact List.mem_append_left l (List.mem_append_right t.entries hin)
      · exact ih h hmem

/-- C2: with a nonempty prompt list whose last prompt's `end_time` parses
to `L > 0`, the prompt-authored total is `L`, the scale is
`audio_total / L`, every entry inserted by the rescaling loop carries its
prompt's parsed times multiplied by that scale, every prompt with a
generated image and parseable times gets its scaled image entry inserted,
and in the spec's example an audio total of 120 against a last prompt
ending at "1:00" (60 s) gives scale 2. -/
theorem rescaler_scales_times (prompts : List ImagePrompt)
    (gen bg : List (ℕ × String)) (A L : ℚ) (last : ImagePrompt)
    (t t' : Timeline)
    (hlast : prompts.getLast? = some last)
    (hL : time_to_seconds last.end_time = .ok L) (hLpos : 0 < L)
    (h : rescaleStep prompts gen bg (computeTimeScale A L) t = .ok t') :
    computePromptTotal prompts A = .ok L ∧
    computeTimeScale A L = A / L ∧
    (∀ en ∈ t'.entries, en ∈ t.entries ∨
      ∃ p ∈ prompts, ∃ s e, time_to_seconds p.start_time = .ok s ∧
        time_to_seconds p.end_time = .ok e ∧
        en.start_time = s * (A / L) ∧ en.end_time = e * (A / L)) ∧
    (∀ p ∈ prompts, ∀ img, gen.lookup p.number = some img →
      ∀ s e, time_to_seconds p.start_time = .ok s →
        time_to_seconds p.end_time = .ok e →
        (⟨s * (A / L), e * (A / L), "image", img, none⟩ : TimelineEntry) ∈
          t'.entries) ∧
    (time_to_seconds "1:00" = .ok 60 ∧ computeTimeScale 120 60 = 2) := by
  have hscale : computeTimeScale A L = A / L := if_pos hLpos
  refine ⟨?_, hscale, ?_, ?_, tts_1_00, by unfold computeTimeScale; norm_num⟩
  · unfold computePromptTotal
    rw [hlast]
    exact hL
  · rw [← hscale]
    exact rescaleStep_entries h
  · intro p hp img himg s e hs he
    rw [← hscale]
    exact rescaleStep_complete h hp himg hs he

lemma rescaleStep_singleton {gen bg : List (ℕ × String)} {p : ImagePrompt}
    {img : String} {s e scale : ℚ} {t : Timeline}
    (himg : gen.lookup p.number = some img)
    (hbg : bg.lookup p.number = none)
    (hs : time_to_seconds p.start_time = .ok s)
    (he : time_to_seconds p.end_time = .ok e) :
    rescaleStep [p] gen bg scale t =
      .ok (t.add_entry ⟨s * scale, e * scale, "image", img, none⟩) := by
  unfold rescaleStep promptEntries
  rw [himg, hs, he, hbg]
  rfl

/-- C2 witness: one prompt spanning "0:10"-"1:00" with a generated image,
audio total 120; the scale is 120/60 and the scaled image entry is in the
resulting timeline. -/
theorem rescaler_scales_times_witness :
    computeTimeScale 120 60 = 120 / 60 ∧
    (⟨10 * (120 / 60), 60 * (120 / 60), "image", "img1.png", none⟩ :
        TimelineEntry) ∈
      (emptyTimeline.add_entry
        ⟨10 * computeTimeScale 120 60, 60 * computeTimeScale 120 60,
         "image", "img1.png", none⟩).entries := by
  have h := rescaler_scales_times [⟨1, "0:10", "1:00", ""⟩] [(1, "img1.png")] []
    120 60 ⟨1, "0:10", "1:00", ""⟩ emptyTimeline
    (emptyTimeline.add_entry
      ⟨10 * computeTimeScale 120 60, 60 * computeTimeScale 120 60,
       "image", "img1.png", none⟩)
    (by decide) tts_1_00 (by norm_num)
    (rescaleStep_singleton rfl rfl tts_0_10 tts_1_00)
  refine ⟨h.2.1, ?_⟩
  exact h.2.2.2.1 ⟨1, "0:10", "1:00", ""⟩ (by decide) "img1.png" rfl
    10 60 tts_0_10 tts_1_00

lemma tts_0_00 : time_to_seconds "0:00" = .ok 0 := by
  have h := time_to_seconds_two (s := "0:00") (a := "0") (b := "00")
    (m := 0) (n := 0) (by decide) (by decide) (by decide)
  norm_num at h
  exact h

lemma tts_0_05 : time_to_seconds "0:05" = .ok 5 := by
  have h := time_to_seconds_two (s := "0:05") (a := "0") (b := "05")
    (m := 0) (n := 5) (by decide) (by decide) (by decide)
  norm_num at h
  exact h

/-- C7 counterexample: one prompt with a generated image whose `end_time`
"0:00" parses to a prompt total of 0 (not strictly positive), so the
scale defaults to 1.0 — yet the rescaling loop still raises `ValueError`
parsing the malformed `start_time` "x:y". -/
theorem rescale_nonpositive_raises :
    computePromptTotal [⟨1, "x:y", "0:00", ""⟩] 10 = .ok 0 ∧
    ¬ (0 : ℚ) < 0 ∧
    computeTimeScale 10 0 = 1 ∧
    rescaleStep [⟨1, "x:y", "0:00", ""⟩] [(1, "img.png")] []
      (computeTimeScale 10 0) emptyTimeline = .error () := by
  refine ⟨?_, by norm_num, ?_, ?_⟩
  · have hlast : ([⟨1, "x:y", "0:00", ""⟩] : List ImagePrompt).getLast? =
        some ⟨1, "x:y", "0:00", ""⟩ := by decide
    unfold computePromptTotal
    rw [hlast]
    exact tts_0_00
  · unfold computeTimeScale
    norm_num
  · have hxy : time_to_seconds "x:y" = .error () := by decide
    unfold rescaleStep promptEntries
    simp [List.lookup, hxy]

lemma promptEntries_ok {gen bg : List (ℕ × String)} {scale : ℚ}
    {p : ImagePrompt} {s e : ℚ}
    (hs : time_to_seconds p.start_time = .ok s)
    (he : time_to_seconds p.end_time = .ok e) :
    ∃ es, promptEntries gen bg scale p = .ok es := by
  unfold promptEntries
  rcases hg : gen.lookup p.number with _ | img
  · exact ⟨[], rfl⟩
  · rw [hs, he]
    rcases hb : bg.lookup p.number with _ | v
    · exact ⟨_, rfl⟩
    · exact ⟨_, rfl⟩

/-- C7 amended: whenever the prompt-authored total is not strictly
positive, the scale defaults to 1.0 (so the scale computation never
divides by zero); the rescaling step always completes for an empty prompt
list, and completes for every prompt list whose time strings all parse —
but a prompt whose time string fails to parse still raises. -/
theorem rescale_scale_default (A L : ℚ) (hL : ¬ 0 < L) :
    computeTimeScale A L = 1 ∧
    (∀ gen bg t, rescaleStep [] gen bg (computeTimeScale A L) t = .ok t) ∧
    (∀ prompts (gen bg : List (ℕ × String)) t,
      (∀ p ∈ prompts, (∃ q, time_to_seconds p.start_time = .ok q) ∧
        (∃ q, time_to_seconds p.end_time = .ok q)) →
      ∃ t', rescaleStep prompts gen bg (computeTimeScale A L) t = .ok t') := by
  refine ⟨by unfold computeTimeScale; rw [if_neg hL], fun gen bg t => rfl, ?_⟩
  intro prompts gen bg t hall
  induction prompts generalizing t with
  | nil => exact ⟨t, rfl⟩
  | cons p ps ih =>
    obtain ⟨⟨s, hs⟩, ⟨e, he⟩⟩ := hall p (List.mem_cons_self p ps)
    obtain ⟨es, hes⟩ := @promptEntries_ok gen bg (computeTimeScale A L) p s e hs he
    obtain ⟨t', ht'⟩ :=
      ih (es.foldl Timeline.add_entry t)
        (fun q hq => hall q (List.mem_cons_of_mem p hq))
    refine ⟨t', ?_⟩
    unfold rescaleStep
    rw [hes]
    exact ht'

/-- C7 witness: a nonpositive prompt total (0) with one well-formed prompt;
the rescaling step completes. -/
theorem rescale_scale_default_witness :
    ∃ t', rescaleStep [⟨1, "0:05", "0:10", ""⟩] [(1, "i.png")] []
      (computeTimeScale 7 0) emptyTimeline = .ok t' :=
  (rescale_scale_default 7 0 (by norm_num)).2.2
    [⟨1, "0:05", "0:10", ""⟩] [(1, "i.png")] [] emptyTimeline
    (by
      intro p hp
      rcases List.mem_singleton.mp hp with rfl
      exact ⟨⟨5, tts_0_05⟩, ⟨10, tts_0_10⟩⟩)

lemma foldl_maxEnd_zero {es : List TimelineEntry}
    (h : ∀ e ∈ es, e.end_time = 0) : es.foldl maxEnd 0 = 0 := by
  rcases foldl_maxEnd_eq_or_mem 0 es with h0 | ⟨e, he, hv⟩
  · exact h0
  · rw [hv, h e he]

lemma rescaleStep_zero_total {prompts : List ImagePrompt}
    {gen bg : List (ℕ × String)} {t t' : Timeline}
    (h : rescaleStep prompts gen bg 0 t = .ok t')
    (ht : t.total_duration = 0) : t'.total_duration = 0 := by
  induction prompts generalizing t with
  | nil =>
    cases h
    exact ht
  | cons p ps ih =>
    unfold rescaleStep at h
    rcases hp : promptEntries gen bg 0 p with u | es <;> rw [hp] at h
    · cases h
    · refine ih h ?_
      rw [foldl_add_entry_total, ht]
      refine foldl_maxEnd_zero ?_
      intro en hen
      rcases promptEntries_scaled hp en hen with ⟨s, e, _, _, _, h4⟩
      rw [h4, mul_zero]

/-- C10: with no audio (`audio_total_duration = 0` on the timeline) and a
strictly positive prompt total `L`, the computed scale is `0/L = 0`, so
every entry inserted by the rescaling step starts and ends at 0 and the
timeline's `total_duration` stays 0. -/
theorem zero_audio_scale (L : ℚ) (hL : 0 < L)
    (prompts : List ImagePrompt) (gen bg : List (ℕ × String)) (t t' : Timeline)
    (ht : t.total_duration = 0)
    (h : rescaleStep prompts gen bg (computeTimeScale 0 L) t = .ok t') :
    computeTimeScale 0 L = 0 ∧
    t'.total_duration = 0 ∧
    ∀ e ∈ t'.entries, e ∈ t.entries ∨ (e.start_time = 0 ∧ e.end_time = 0) := by
  have h0 : computeTimeScale 0 L = 0 := by
    unfold computeTimeScale
    rw [if_pos hL, zero_div]
  rw [h0] at h
  refine ⟨h0, rescaleStep_zero_total h ht, ?_⟩
  intro e he
  rcases rescaleStep_entries h e he with hmem | ⟨p, hp, s, e2, hs, he2, h3, h4⟩
  · exact Or.inl hmem
  · exact Or.inr ⟨by rw [h3, mul_zero], by rw [h4, mul_zero]⟩

/-- C10 witness: one prompt "0:10"-"1:00" with an image, audio total 0:
the inserted entry collapses to 0-0 and the total stays 0. -/
theorem zero_audio_scale_witness :
    computeTimeScale 0 60 = 0 ∧
    (emptyTimeline.add_entry
      ⟨10 * computeTimeScale 0 60, 60 * computeTimeScale 0 60,
       "image", "img.png", none⟩).total_duration = 0 := by
  have h := zero_audio_scale 60 (by norm_num) [⟨1, "0:10", "1:00", ""⟩]
    [(1, "img.png")] [] emptyTimeline
    (emptyTimeline.add_entry
      ⟨10 * computeTimeScale 0 60, 60 * computeTimeScale 0 60,
       "image", "img.png", none⟩)
    rfl (rescaleStep_singleton rfl rfl tts_0_10 tts_1_00)
  exact ⟨h.1, h.2.1⟩

/-! ### `VideoEditor.create_video` (editor.py): background-video looping,
BGM looping and the image-overlay rule. -/

/-- `loops_needed = int(span / native) + 1` (editor.py lines 127 and 179;
the background-video loop uses `span = end_time - start_time`, the BGM
loop uses `span = timeline.total_duration`). -/
def loopsNeeded (native span : ℚ) : ℤ := pyTrunc (span / native) + 1

/-- Duration of the scheduled clip: when the native duration is shorter
than the span the clip is concatenated `loopsNeeded` times, then
`subclipped(0, span)` trims it to at most the requested span (editor.py
lines 126-131 and 177-182; same arithmetic for background video and BGM). -/
def loopTrimClipLength (native span : ℚ) : ℚ :=
  min span (if native < span then (loopsNeeded native span : ℚ) * native else native)

/-- C3: when a clip's native duration is strictly shorter than the
requested span, it is repeated `int(span/native) + 1` times, the
concatenation is at least as long as the span, and the trimmed scheduled
clip lasts exactly the span. -/
theorem loop_trim_covers_span (native span : ℚ)
    (h0 : 0 < native) (h : native < span) :
    loopsNeeded native span = ⌊span / native⌋ + 1 ∧
    span ≤ (loopsNeeded native span : ℚ) * native ∧
    loopTrimClipLength native span = span := by
  have hx : (0 : ℚ) ≤ span / native := le_of_lt (div_pos (h0.trans h) h0)
  have h1 : loopsNeeded native span = ⌊span / native⌋ + 1 := by
    unfold loopsNeeded pyTrunc
    rw [if_pos hx]
  have h2 : span ≤ (loopsNeeded native span : ℚ) * native := by
    rw [h1]
    push_cast
    have hlt : span / native < (⌊span / native⌋ : ℚ) + 1 := Int.lt_floor_add_one _
    calc span = span / native * native := (div_mul_cancel₀ span (ne_of_gt h0)).symm
      _ ≤ ((⌊span / native⌋ : ℚ) + 1) * native :=
        mul_le_mul_of_nonneg_right hlt.le h0.le
  refine ⟨h1, h2, ?_⟩
  unfold loopTrimClipLength
  rw [if_pos h]
  exact min_eq_left h2

/-- C3 witness: a 3-second clip against a 10-second span is looped 4 times
(12 s ≥ 10 s) and trimmed to exactly 10 s. -/
theorem loop_trim_covers_span_witness :
    loopTrimClipLength 3 10 = 10 :=
  (loop_trim_covers_span 3 10 (by norm_num) (by norm_num)).2.2

/-- The `has_bg_video` check of the image loop (editor.py lines 146-150):
some `video` entry `v` with `v.start_time <= entry.start_time <
v.end_time`. -/
def has_bg_video (tl : Timeline) (e : TimelineEntry) : Bool :=
  tl.entries.any fun v =>
    v.media_type == "video" && decide (v.start_time ≤ e.start_time) &&
      decide (e.start_time < v.end_time)

/-- The placement data of one rendered image clip. -/
structure ImageClipSpec where
  w : ℤ
  h : ℤ
  centered : Bool
  start : ℚ
  duration : ℚ
deriving DecidableEq, Repr

/-- The clip built for one `image` entry (editor.py lines 140-171):
centered at 80% of the canvas when `has_bg_video` holds, full canvas
otherwise; duration `end_time - start_time`, start `start_time`.
`0.8` is modelled by the exact rational 4/5. -/
def renderImageEntry (width height : ℤ) (tl : Timeline) (e : TimelineEntry) :
    ImageClipSpec :=
  if has_bg_video tl e then
    { w := pyTrunc ((width : ℚ) * (4 / 5)), h := pyTrunc ((height : ℚ) * (4 / 5)),
      centered := true, start := e.start_time,
      duration := e.end_time - e.start_time }
  else
    { w := width, h := height, centered := false, start := e.start_time,
      duration := e.end_time - e.start_time }

/-- Modelled from the spec's words: two entries' time intervals overlap. -/
def intervalsOverlapSpec (a b : TimelineEntry) : Bool :=
  decide (a.start_time < b.end_time) && decide (b.start_time < a.end_time)

/-- C4 counterexample: the image entry [0,10] and the video entry [5,8]
have overlapping time intervals, yet the code renders the image full-size,
because the decision tests only whether the image's start time lies inside
a video interval. -/
theorem image_overlay_iff_overlap_false :
    intervalsOverlapSpec ⟨5, 8, "video", "bg.mp4", none⟩
        ⟨0, 10, "image", "scene.png", none⟩ = true ∧
    (renderImageEntry 1920 1080
        (Timeline.mk [⟨0, 10, "image", "scene.png", none⟩,
                      ⟨5, 8, "video", "bg.mp4", none⟩] 10)
        ⟨0, 10, "image", "scene.png", none⟩).centered = false := by
  constructor
  · decide
  · have hb : has_bg_video
        (Timeline.mk [⟨0, 10, "image", "scene.png", none⟩,
                      ⟨5, 8, "video", "bg.mp4", none⟩] 10)
        ⟨0, 10, "image", "scene.png", none⟩ = false := by decide
    unfold renderImageEntry
    rw [hb]
    rfl

/-- C4 amended: the image is rendered centered at 80% of the canvas iff
some `video` entry `v` satisfies `v.start_time ≤ image.start_time <
v.end_time` (start-containment, not general interval overlap); in both
branches the duration is `end_time - start_time` and the clip starts at
`start_time`. -/
theorem image_overlay_rule (width height : ℤ) (tl : Timeline)
    (e : TimelineEntry) (_hmt : e.media_type = "image") :
    ((renderImageEntry width height tl e).centered = true ↔
      ∃ v ∈ tl.entries, v.media_type = "video" ∧
        v.start_time ≤ e.start_time ∧ e.start_time < v.end_time) ∧
    (renderImageEntry width height tl e).start = e.start_time ∧
    (renderImageEntry width height tl e).duration = e.end_time - e.start_time ∧
    ((renderImageEntry width height tl e).centered = true →
      (renderImageEntry width height tl e).w = pyTrunc ((width : ℚ) * (4 / 5)) ∧
      (renderImageEntry width height tl e).h = pyTrunc ((height : ℚ) * (4 / 5))) ∧
    ((renderImageEntry width height tl e).centered = false →
      (renderImageEntry width height tl e).w = width ∧
      (renderImageEntry width height tl e).h = height) := by
  have hiff : has_bg_video tl e = true ↔
      ∃ v ∈ tl.entries, v.media_type = "video" ∧
        v.start_time ≤ e.start_time ∧ e.start_time < v.end_time := by
    unfold has_bg_video
    simp [List.any_eq_true, Bool.and_eq_true, decide_eq_true_eq, and_assoc]
  rcases hb : has_bg_video tl e with _ | _
  · have hre : renderImageEntry width height tl e =
        { w := width, h := height, centered := false,
          start := e.start_time, duration := e.end_time - e.start_time } := by
      unfold renderImageEntry
      rw [hb]
      rfl
    rw [hb] at hiff
    rw [hre]
    exact ⟨by simpa using hiff, rfl, rfl,
      fun hc => absurd hc (by simp), fun _ => ⟨rfl, rfl⟩⟩
  · have hre : renderImageEntry width height tl e =
        { w := pyTrunc ((width : ℚ) * (4 / 5)),
          h := pyTrunc ((height : ℚ) * (4 / 5)), centered := true,
          start := e.start_time, duration := e.end_time - e.start_time } := by
      unfold renderImageEntry
      rw [hb]
      rfl
    rw [hb] at hiff
    rw [hre]
    exact ⟨by simpa using hiff, rfl, rfl,
      fun _ => ⟨rfl, rfl⟩, fun hc => absurd hc (by simp)⟩

/-- C4 amended witness: with a video entry covering the image's start, the
image is centered at 1536×864, which is 80% of 1920×1080. -/
theorem image_overlay_rule_witness :
    (renderImageEntry 1920 1080
        (Timeline.mk [⟨0, 10, "image", "i.png", none⟩,
                      ⟨0, 10, "video", "v.mp4", none⟩] 10)
        ⟨0, 10, "image", "i.png", none⟩).centered = true ∧
    (renderImageEntry 1920 1080
        (Timeline.mk [⟨0, 10, "image", "i.png", none⟩,
                      ⟨0, 10, "video", "v.mp4", none⟩] 10)
        ⟨0, 10, "image", "i.png", none⟩).w = 1536 := by
  have h := image_overlay_rule 1920 1080
    (Timeline.mk [⟨0, 10, "image", "i.png", none⟩,
                  ⟨0, 10, "video", "v.mp4", none⟩] 10)
    ⟨0, 10, "image", "i.png", none⟩ rfl
  have hc : (renderImageEntry 1920 1080
      (Timeline.mk [⟨0, 10, "image", "i.png", none⟩,
                    ⟨0, 10, "video", "v.mp4", none⟩] 10)
      ⟨0, 10, "image", "i.png", none⟩).centered = true :=
    h.1.mpr ⟨⟨0, 10, "video", "v.mp4", none⟩, by decide, rfl, by decide, by decide⟩
  refine ⟨hc, ?_⟩
  have hw := (h.2.2.2.1 hc).1
  rw [hw]
  unfold pyTrunc
  rw [if_pos (by norm_num)]
  rw [show ((1920 : ℤ) : ℚ) * (4 / 5) = 1536 by norm_num]
  norm_num

/-! ### The duration probe (`get_audio_duration` and
`get_audio_duration_auto`, app.py lines 1515-1532 and 1608-1622; the two
local functions are textually identical).  The probe's external reader and
the file-size read are inputs: `.error ()` is a raised exception, and the
reader may report `none` (no duration) or a duration that can be `0`. -/

/-- `get_audio_duration`: return the probed duration when truthy, `5.0`
when the probe yields a falsy duration, `max(1.0, size/48000)` when the
probe raises and the file size is readable, `5.0` when both fail.  Every
branch returns, so the function never raises. -/
def get_audio_duration (probe : Except Unit (Option ℚ))
    (file_size : Except Unit ℕ) : ℚ :=
  match probe with
  | .ok d =>
    match d with
    | some v => if v ≠ 0 then v else 5
    | none => 5
  | .error _ =>
    match file_size with
    | .ok n => max 1 ((n : ℚ) / 48000)
    | .error _ => 5

/-- C5: when the reader raises, the probe returns `max(1.0, size/48000)`
for every readable file size — in particular exactly 10.0 for a 480000
byte file — and returns `5.0` when even the file-size read fails; by
construction every input yields a value, i.e. the probe never raises. -/
theorem duration_probe_fallback :
    (∀ fs : ℕ, get_audio_duration (.error ()) (.ok fs) =
      max 1 ((fs : ℚ) / 48000)) ∧
    get_audio_duration (.error ()) (.ok 480000) = 10 ∧
    get_audio_duration (.error ()) (.error ()) = 5 := by
  refine ⟨fun fs => rfl, ?_, rfl⟩
  show max 1 ((480000 : ℚ) / 48000) = 10
  norm_num

/-! ### Format registry (`VideoEditor.get_format_config`, editor.py lines
77-83).  The `video_formats` table lives in `config/settings.json`. -/

/-- One output format profile, as stored in settings. -/
structure FormatConfig where
  width : ℤ
  height : ℤ
  aspect_ratio : String
deriving DecidableEq, Repr

/-- Modelled from the spec: the `video_formats` table of
`config/settings.json` is not part of the source tree; per spec §6 it maps
`youtube` to 1920×1080, `instagram_reel` to 1080×1920, `instagram_feed` to
1080×1080 and `tiktok` to 1080×1920. -/
def video_formats : List (String × FormatConfig) :=
  [("youtube", ⟨1920, 1080, "16:9"⟩),
   ("instagram_reel", ⟨1080, 1920, "9:16"⟩),
   ("instagram_feed", ⟨1080, 1080, "1:1"⟩),
   ("tiktok", ⟨1080, 1920, "9:16"⟩)]

/-- `VideoEditor.get_format_config`: `formats.get(format_name, default)`
with the literal 1920×1080 default of the source. -/
def get_format_config (formats : List (String × FormatConfig))
    (format_name : String) : FormatConfig :=
  (formats.lookup format_name).getD ⟨1920, 1080, "16:9"⟩

/-- C8: `"tiktok"` resolves to 1080×1920 and an unregistered name such as
`"unknown_format"` falls back to the 1920×1080 default. -/
theorem format_lookup :
    (get_format_config video_formats "tiktok").width = 1080 ∧
    (get_format_config video_formats "tiktok").height = 1920 ∧
    (get_format_config video_formats "unknown_format").width = 1920 ∧
    (get_format_config video_formats "unknown_format").height = 1080 := by
  refine ⟨?_, ?_, ?_, ?_⟩ <;> decide

/-! ### `Timeline.to_csv` (editor.py lines 47-68) and its re-read.

`csv.writer` stringifies each cell and guarantees that written rows are
read back as the same string rows; the float-to-string encoding and its
parse are taken as parameters that invert each other on the serialized
values, which Python's `str`/`float` pair satisfies. -/

/-- The header row written by `to_csv`. -/
def csvHeader : List String :=
  ["start_time", "end_time", "media_type", "file_path", "speaker"]

/-- One data row of `to_csv`: stringified start and end, the media type,
the file path, and `speaker or ""`. -/
def csvRow (enc : ℚ → String) (e : TimelineEntry) : List String :=
  [enc e.start_time, enc e.end_time, e.media_type, e.file_path,
   e.speaker.getD ""]

/-- `to_csv`: the header row followed by one row per entry, in insertion
order. -/
def to_csv_rows (enc : ℚ → String) (tl : Timeline) : List (List String) :=
  csvHeader :: tl.entries.map (csvRow enc)

/-- Re-reading one CSV data row as a (start, end, type, path, speaker)
tuple; `none` for a row of the wrong width. -/
def readCsvRow (dec : String → ℚ) (row : List String) :
    Option (ℚ × ℚ × String × String × String) :=
  match row with
  | [s, e, m, f, sp] => some (dec s, dec e, m, f, sp)
  | _ => none

lemma csv_rows_round_trip (enc : ℚ → String) (dec : String → ℚ)
    (es : List TimelineEntry)
    (hinv : ∀ e ∈ es, dec (enc e.start_time) = e.start_time ∧
      dec (enc e.end_time) = e.end_time) :
    (es.map (csvRow enc)).map (readCsvRow dec) =
      es.map (fun e =>
        some (e.start_time, e.end_time, e.media_type, e.file_path,
          e.speaker.getD "")) := by
  induction es with
  | nil => rfl
  | cons e es ih =>
    have he := hinv e (List.mem_cons_self e es)
    rw [List.map_cons, List.map_cons, List.map_cons,
      ih (fun q hq => hinv q (List.mem_cons_of_mem e hq))]
    congr 1
    show some (dec (enc e.start_time), dec (enc e.end_time), e.media_type,
      e.file_path, e.speaker.getD "") = _
    rw [he.1, he.2]

/-- C9: `to_csv` writes a header row plus one row per entry in insertion
order, and re-reading the written rows (with any decoder inverting the
encoder on the written values) reproduces the entries' (start, end, type,
path, speaker) tuples in order, with an absent speaker serialized as "". -/
theorem to_csv_round_trip (enc : ℚ → String) (dec : String → ℚ)
    (tl : Timeline)
    (hinv : ∀ e ∈ tl.entries, dec (enc e.start_time) = e.start_time ∧
      dec (enc e.end_time) = e.end_time) :
    to_csv_rows enc tl = csvHeader :: tl.entries.map (csvRow enc) ∧
    ((to_csv_rows enc tl).drop 1).map (readCsvRow dec) =
      tl.entries.map (fun e =>
        some (e.start_time, e.end_time, e.media_type, e.file_path,
          e.speaker.getD "")) :=
  ⟨rfl, csv_rows_round_trip enc dec tl.entries hinv⟩

/-- C9 witness: a two-entry timeline (one entry with a speaker, one
without) round-trips through concrete encoder/decoder functions. -/
theorem to_csv_round_trip_witness :
    ((to_csv_rows (fun q => if q = 0 then "0" else if q = 3 then "3" else "5")
        ⟨[⟨0, 3, "audio", "a.wav", some "speaker1"⟩,
          ⟨3, 5, "image", "i.png", none⟩], 5⟩).drop 1).map
      (readCsvRow (fun s => if s = "0" then 0 else if s = "3" then 3 else 5)) =
      (⟨[⟨0, 3, "audio", "a.wav", some "speaker1"⟩,
         ⟨3, 5, "image", "i.png", none⟩], 5⟩ : Timeline).entries.map (fun e =>
        some (e.start_time, e.end_time, e.media_type, e.file_path,
          e.speaker.getD "")) :=
  (to_csv_round_trip (fun q => if q = 0 then "0" else if q = 3 then "3" else "5")
    (fun s => if s = "0" then 0 else if s = "3" then 3 else 5)
    ⟨[⟨0, 3, "audio", "a.wav", some "speaker1"⟩,
      ⟨3, 5, "image", "i.png", none⟩], 5⟩
    (by decide)).2

end VideoGen
